import Mathlib

/-!
Shallow embedding of the realtime chat server of this repository.

The embedding covers:
* the in-memory ledger `MemStorage` of `server/storage.ts` (users, messages,
  conversations, unread counts, search);
* the message-history route of `server/routes.ts` (GET /api/messages/:id);
* the WebSocket server of `server/models/conversation.ts` (`setupWebSocketServer`):
  the per-connection message handler with its authentication block, the
  text / typing / status dispatch, and the close handler.

JavaScript `Map` objects are modelled as association lists in insertion order
(`Jmap`); `Array.from(map.values())` is `jvalues`.  `new Date()` is modelled by
a logical clock `now : Nat` stored in the state; `Array.prototype.sort` with a
comparator is modelled by the stable `List.insertionSort`.  User, message and
conversation identifiers are natural numbers; the reserved broadcast receiver
id of the source is `0`.
-/

namespace MernChat

/-! ### JavaScript Map model -/

/-- An insertion-ordered key-value list, modelling a JS `Map<number, α>`. -/
abbrev Jmap (α : Type) : Type := List (Nat × α)

/-- Model of `map.get(k)`. -/
def jget {α : Type} (m : Jmap α) (k : Nat) : Option α :=
  (m.find? (fun p => p.1 == k)).map (·.2)

/-- Model of `map.set(k, v)`: replace the entry for `k` in place, or append. -/
def jset {α : Type} : Jmap α → Nat → α → Jmap α
  | [], k, v => [(k, v)]
  | e :: t, k, v => if e.1 = k then (k, v) :: t else e :: jset t k v

/-- Model of `map.delete(k)`. -/
def jdelete {α : Type} (m : Jmap α) (k : Nat) : Jmap α :=
  m.filter (fun p => decide (p.1 ≠ k))

/-- Model of `Array.from(map.values())` (insertion order). -/
def jvalues {α : Type} (m : Jmap α) : List α := m.map (·.2)

/-! ### Data model (shared/schema.ts records, storage.ts state) -/

/-- A user record, as stored by `MemStorage.users`. -/
structure User where
  id : Nat
  name : String
  username : String
  email : String
  password : String
  avatar : Option String
  createdAt : Nat
  lastActive : Nat
  isOnline : Bool
deriving DecidableEq, Repr

/-- A message record, as stored by `MemStorage.messages`. -/
structure Message where
  id : Nat
  content : String
  senderId : Nat
  receiverId : Nat
  timestamp : Nat
  read : Bool
deriving DecidableEq, Repr

/-- A conversation record, as stored by `MemStorage.conversations`. -/
structure Conversation where
  id : Nat
  user1Id : Nat
  user2Id : Nat
  lastMessageId : Nat
  updatedAt : Nat
deriving DecidableEq, Repr

/-- The state of a `MemStorage` instance, plus a logical clock for `new Date()`. -/
structure Storage where
  users : Jmap User
  messages : Jmap Message
  conversations : Jmap Conversation
  currentUserId : Nat
  currentMessageId : Nat
  currentConversationId : Nat
  now : Nat
deriving DecidableEq, Repr

/-! ### MemStorage operations (server/storage.ts) -/

/-- Model of `MemStorage.getUser`. -/
def getUser (s : Storage) (id : Nat) : Option User := jget s.users id

/-- Model of `MemStorage.updateUserStatus`. -/
def updateUserStatus (s : Storage) (userId : Nat) (isOnline : Bool) : Storage :=
  match getUser s userId with
  | none => s
  | some u =>
      { s with users := jset s.users userId { u with isOnline := isOnline, lastActive := s.now } }

/-! JavaScript string helpers used by `searchUsers`: `toLowerCase`, `trim`
and `includes`, modelled over character lists (ASCII lowering). -/

/-- Model of `String.prototype.toLowerCase` (ASCII). -/
def jsToLower (s : String) : List Char := s.toList.map Char.toLower

/-- Model of `String.prototype.trim`. -/
def jsTrim (l : List Char) : List Char :=
  ((l.dropWhile Char.isWhitespace).reverse.dropWhile Char.isWhitespace).reverse

/-- Model of `haystack.includes(needle)` on character lists. -/
def containsSub : List Char → List Char → Bool
  | [], sub => sub.isEmpty
  | c :: t, sub => sub.isPrefixOf (c :: t) || containsSub t sub

/-- Model of `MemStorage.searchUsers`: skip blank queries, exclude the current
user, match the lowered query against username / email / name, keep 10. -/
def searchUsers (s : Storage) (query : String) (currentUserId : Nat) : List User :=
  if (jsTrim query.toList).isEmpty then []
  else
    let lowerQuery := jsTrim (jsToLower query)
    ((jvalues s.users).filter (fun u =>
        decide (u.id ≠ currentUserId) &&
        (containsSub (jsToLower u.username) lowerQuery ||
         containsSub (jsToLower u.email) lowerQuery ||
         containsSub (jsToLower u.name) lowerQuery))).take 10

/-- The filter of `MemStorage.getMessages`: messages between the pair, in
either direction. -/
def messagesBetween (s : Storage) (userId otherUserId : Nat) : List Message :=
  (jvalues s.messages).filter (fun m =>
    decide ((m.senderId = userId ∧ m.receiverId = otherUserId) ∨
            (m.senderId = otherUserId ∧ m.receiverId = userId)))

/-- Model of `MemStorage.getMessages`: the pair's messages sorted by ascending
timestamp (stable comparison sort, as `Array.prototype.sort`). -/
def getMessages (s : Storage) (userId otherUserId : Nat) : List Message :=
  (messagesBetween s userId otherUserId).insertionSort
    (fun a b => a.timestamp ≤ b.timestamp)

/-- Model of `MemStorage.getConversation`: first record matching the pair in
either orientation. -/
def getConversation (s : Storage) (user1Id user2Id : Nat) : Option Conversation :=
  ((jvalues s.conversations).find? (fun conv =>
    decide ((conv.user1Id = user1Id ∧ conv.user2Id = user2Id) ∨
            (conv.user1Id = user2Id ∧ conv.user2Id = user1Id))))

/-- Model of `MemStorage.createOrUpdateConversation`. -/
def createOrUpdateConversation (s : Storage) (userId otherUserId messageId : Nat) : Storage :=
  match getConversation s userId otherUserId with
  | some existing =>
      let updated : Conversation :=
        { existing with lastMessageId := messageId, updatedAt := s.now }
      { s with conversations := jset s.conversations existing.id updated }
  | none =>
      let id := s.currentConversationId
      let fresh : Conversation :=
        { id := id, user1Id := userId, user2Id := otherUserId,
          lastMessageId := messageId, updatedAt := s.now }
      { s with
          currentConversationId := id + 1,
          conversations := jset s.conversations id fresh }

/-- Model of `MemStorage.createMessage`: store the new (unread) message, then
upsert the conversation record; the clock advances afterwards. -/
def createMessage (s : Storage) (senderId receiverId : Nat) (content : String) :
    Storage × Message :=
  let id := s.currentMessageId
  let msg : Message :=
    { id := id, content := content, senderId := senderId, receiverId := receiverId,
      timestamp := s.now, read := false }
  let s1 := { s with currentMessageId := id + 1, messages := jset s.messages id msg }
  let s2 := createOrUpdateConversation s1 senderId receiverId id
  ({ s2 with now := s2.now + 1 }, msg)

/-- The per-entry effect of `MemStorage.markMessagesAsRead`: an unread message
from `otherUserId` to `userId` gets `read := true`; anything else is kept. -/
def markReadEntry (userId otherUserId : Nat) (p : Nat × Message) : Nat × Message :=
  if p.2.senderId = otherUserId ∧ p.2.receiverId = userId ∧ p.2.read = false
  then (p.1, { p.2 with read := true }) else p

/-- Model of `MemStorage.markMessagesAsRead`: flip `read` on every unread
message from `otherUserId` to `userId`. -/
def markMessagesAsRead (s : Storage) (userId otherUserId : Nat) : Storage :=
  { s with messages := s.messages.map (markReadEntry userId otherUserId) }

/-- The unread count computed inside `MemStorage.getConversations`. -/
def unreadFrom (s : Storage) (viewerId otherId : Nat) : Nat :=
  ((jvalues s.messages).filter (fun m =>
    decide (m.senderId = otherId ∧ m.receiverId = viewerId ∧ m.read = false))).length

/-- One annotated entry of the `MemStorage.getConversations` listing. -/
structure ConversationEntry where
  conv : Conversation
  otherUser : User
  lastMessage : Option Message
  unreadCount : Nat
deriving DecidableEq, Repr

/-- Model of `MemStorage.getConversations`: the user's conversations annotated
with the other participant, last message and unread count, dropped when the
other user is missing, sorted by descending `updatedAt`. -/
def getConversations (s : Storage) (userId : Nat) : List ConversationEntry :=
  let userConversations := (jvalues s.conversations).filter (fun conv =>
    decide (conv.user1Id = userId ∨ conv.user2Id = userId))
  let result := userConversations.filterMap (fun conv =>
    let otherUserId := if conv.user1Id = userId then conv.user2Id else conv.user1Id
    match getUser s otherUserId with
    | none => none
    | some otherUser =>
        let lastMessage := if conv.lastMessageId = 0 then none
                           else jget s.messages conv.lastMessageId
        some { conv := conv, otherUser := otherUser, lastMessage := lastMessage,
               unreadCount := unreadFrom s userId otherUserId })
  result.insertionSort (fun a b => b.conv.updatedAt ≤ a.conv.updatedAt)

/-- Model of the GET /api/messages/:conversationId handler of
`server/routes.ts`: find the conversation in the viewer's listing, return the
pair's history and mark the viewer's side read; `none` is the 404 branch. -/
def routeGetMessages (s : Storage) (userId conversationId : Nat) :
    Option (List Message × Storage) :=
  match (getConversations s userId).find? (fun e => e.conv.id == conversationId) with
  | none => none
  | some e =>
      some (getMessages s userId e.otherUser.id,
            markMessagesAsRead s userId e.otherUser.id)

/-! ### WebSocket server (server/models/conversation.ts, setupWebSocketServer) -/

/-- The `MessageType` enum of shared/schema.ts. -/
inductive FrameType
  | text
  | typing
  | status
deriving DecidableEq, Repr

/-- A parsed `WebSocketMessage` frame. -/
structure WSMessage where
  type : FrameType
  senderId : Nat
  receiverId : Nat
  content : String
deriving DecidableEq, Repr

/-- The per-socket fields of an `AuthenticatedClient`: the `userId` property
set by the authentication block, and whether `close()` has been called on the
socket or it has closed (so that `readyState` is no longer `OPEN`). -/
structure ConnState where
  userId : Option Nat
  closing : Bool
deriving DecidableEq, Repr

/-- The state of the WebSocket server: the `clients` map (user id to
connection id), the per-connection socket fields, the shared storage, and the
ordered log of frames pushed with `send` (target connection id, frame). -/
structure ServerState where
  clients : Jmap Nat
  conns : Jmap ConnState
  store : Storage
  sent : List (Nat × WSMessage)
deriving DecidableEq, Repr

/-- The `userId` property of connection `c`. -/
def connUser (s : ServerState) (c : Nat) : Option Nat :=
  match jget s.conns c with
  | some st => st.userId
  | none => none

/-- Whether connection `c` has `readyState === WebSocket.OPEN`. -/
def isOpenConn (s : ServerState) (c : Nat) : Bool :=
  match jget s.conns c with
  | some st => !st.closing
  | none => false

/-- Model of calling `close()` on connection `c`. -/
def closeConn (s : ServerState) (c : Nat) : ServerState :=
  match jget s.conns c with
  | some st => { s with conns := jset s.conns c { st with closing := true } }
  | none => s

/-- Model of assigning `ws.userId = message.senderId` on connection `c`. -/
def setConnUser (s : ServerState) (c : Nat) (uid : Nat) : ServerState :=
  match jget s.conns c with
  | some st => { s with conns := jset s.conns c { st with userId := some uid } }
  | none => s

/-- Model of `recipientWs.send(data)`. -/
def push (s : ServerState) (c : Nat) (m : WSMessage) : ServerState :=
  { s with sent := s.sent ++ [(c, m)] }

/-- The `switch (message.type)` dispatch of the message handler: text and
typing frames go to the receiver's registered connection when open; status
frames are broadcast to every other registered open connection. -/
def dispatch (s : ServerState) (m : WSMessage) : ServerState :=
  match m.type with
  | .text =>
      match jget s.clients m.receiverId with
      | some recipient => if isOpenConn s recipient then push s recipient m else s
      | none => s
  | .typing =>
      match jget s.clients m.receiverId with
      | some recipient => if isOpenConn s recipient then push s recipient m else s
      | none => s
  | .status =>
      { s with sent := s.sent ++
          ((s.clients.filter (fun p : Nat × Nat => decide (p.1 ≠ m.senderId) && isOpenConn s p.2)).map
            (fun p : Nat × Nat => (p.2, m))) }

/-- Model of the `ws.on('message')` handler: for a connection without a
`userId` and a non-text frame, look the sender up in the user store (dropping
the frame entirely when unknown), bind the connection (closing a different
previously registered connection for that identity), apply an explicit online
or offline status to the store, and then dispatch; in every other case,
dispatch directly. -/
def handleMessage (s : ServerState) (c : Nat) (m : WSMessage) : ServerState :=
  match jget s.conns c with
  | none => s
  | some st =>
      if st.userId = none ∧ m.type ≠ .text then
        match getUser s.store m.senderId with
        | none => s
        | some _ =>
            let s1 := setConnUser s c m.senderId
            let s2 :=
              match jget s1.clients m.senderId with
              | some existing => if existing ≠ c then closeConn s1 existing else s1
              | none => s1
            let s3 := { s2 with clients := jset s2.clients m.senderId c }
            let s4 :=
              if m.type = .status then
                { s3 with store := updateUserStatus s3.store m.senderId (m.content = "online") }
              else s3
            dispatch s4 m
      else
        dispatch s m

/-- The broadcast frame built by the close handler. -/
def offlineFrame (uid : Nat) : WSMessage :=
  { type := .status, senderId := uid, receiverId := 0, content := "offline" }

/-- Model of the `ws.on('close')` handler: if the closing connection carries a
`userId`, mark that user offline in storage, broadcast an offline status frame
to every other registered open connection, and delete the identity's entry
from the `clients` map (unconditionally, whatever connection is stored there). -/
def handleClose (s : ServerState) (c : Nat) : ServerState :=
  match jget s.conns c with
  | none => s
  | some st =>
      let s1 := { s with conns := jset s.conns c { st with closing := true } }
      match st.userId with
      | none => s1
      | some uid =>
          let s2 := { s1 with store := updateUserStatus s1.store uid false }
          let s3 := { s2 with sent := s2.sent ++
              ((s2.clients.filter (fun p : Nat × Nat => decide (p.1 ≠ uid) && isOpenConn s2 p.2)).map
                (fun p : Nat × Nat => (p.2, offlineFrame uid))) }
          { s3 with clients := jdelete s3.clients uid }

/-- Model of the `wss.on('connection')` handler: a fresh socket with no
`userId`. -/
def handleConnect (s : ServerState) (c : Nat) : ServerState :=
  { s with conns := jset s.conns c { userId := none, closing := false } }

/-- The externally visible events driving the server. -/
inductive WSEvent
  | connect (c : Nat)
  | message (c : Nat) (m : WSMessage)
  | close (c : Nat)
deriving DecidableEq, Repr

/-- One event step of the server. -/
def stepEvent (s : ServerState) (e : WSEvent) : ServerState :=
  match e with
  | .connect c => handleConnect s c
  | .message c m => handleMessage s c m
  | .close c => handleClose s c

/-- Run a sequence of events. -/
def runEvents (s : ServerState) (es : List WSEvent) : ServerState :=
  es.foldl stepEvent s

/-- A first typing frame carrying the sender's identity, as used to
authenticate a fresh connection. -/
def typingFrame (uid receiverId : Nat) : WSMessage :=
  { type := .typing, senderId := uid, receiverId := receiverId, content := "typing" }

/-- A first status frame announcing that the sender is online. -/
def onlineFrame (uid : Nat) : WSMessage :=
  { type := .status, senderId := uid, receiverId := 0, content := "online" }

/-- One bind operation: a fresh connection `c` connects and sends its first
(typing) frame carrying identity `uid`. -/
def bindStep (s : ServerState) (uid c : Nat) : ServerState :=
  handleMessage (handleConnect s c) c (typingFrame uid 0)

/-- Connect a list of fresh connections one after another and bind each to
identity `uid` by its first (typing) frame: a sequence of bind operations. -/
def bindSeq (s : ServerState) (uid : Nat) (cs : List Nat) : ServerState :=
  cs.foldl (fun t c => bindStep t uid c) s

/-- Identity `uid` is bound to connection `c`: the clients map stores `c` for
`uid`, and `c` is an open socket carrying `userId = uid`. -/
def BoundTo (s : ServerState) (uid c : Nat) : Prop :=
  jget s.clients uid = some c ∧ connUser s c = some uid ∧ isOpenConn s c = true

/-- The pair predicate of `MemStorage.getConversation`, naming the test used
in its `find` callback. -/
def pairMatch (a b : Nat) (c : Conversation) : Bool :=
  decide ((c.user1Id = a ∧ c.user2Id = b) ∨ (c.user1Id = b ∧ c.user2Id = a))

/-! ### Concrete states used to instantiate the theorems -/

/-- A sample user record. -/
def mkUser (id : Nat) (uname : String) : User :=
  { id := id, name := uname, username := uname, email := uname ++ "@mail.com",
    password := "pw", avatar := none, createdAt := 0, lastActive := 0, isOnline := false }

/-- A storage state holding users 1 (alice) and 2 (bob) and nothing else. -/
def storage0 : Storage :=
  { users := [(1, mkUser 1 "alice"), (2, mkUser 2 "bob")],
    messages := [], conversations := [],
    currentUserId := 3, currentMessageId := 1, currentConversationId := 1, now := 10 }

/-- A freshly started server over `storage0`. -/
def server0 : ServerState :=
  { clients := [], conns := [], store := storage0, sent := [] }

/-- The storage state after user 1 sends "hi" to user 2. -/
def storageAB : Storage := (createMessage storage0 1 2 "hi").1

/-- The message list served for conversation 1 viewed by user 2 on `storageAB`. -/
def servedMsgs : List Message := getMessages storageAB 2 1

/-- The storage state after the history route marks user 2's side read. -/
def storageABRead : Storage := markMessagesAsRead storageAB 2 1

/-- A server state with user 2 bound to open connection 20 and a fresh,
unauthenticated connection 10. -/
def serverC3 : ServerState :=
  { clients := [(2, 20)],
    conns := [(10, { userId := none, closing := false }),
              (20, { userId := some 2, closing := false })],
    store := storage0, sent := [] }

/-- A text frame whose sender id 99 is unknown to the user store. -/
def strangerText : WSMessage :=
  { type := .text, senderId := 99, receiverId := 2, content := "hi" }

/-- Identity 1 binds connection 10 then connection 11; afterwards the stale
close event of the evicted connection 10 is delivered. -/
def staleCloseTrace : List WSEvent :=
  [.connect 10, .message 10 (onlineFrame 1), .connect 11, .message 11 (onlineFrame 1),
   .close 10]

/-- Identity 2 binds connection 20 as an observer; identity 1 binds connection
10 then connection 11; the eviction-caused close event of connection 10 is
delivered. -/
def evictionTrace : List WSEvent :=
  [.connect 20, .message 20 (onlineFrame 2), .connect 10, .message 10 (onlineFrame 1),
   .connect 11, .message 11 (onlineFrame 1), .close 10]

/-! ### Lemmas about the JS Map model -/

theorem jget_jset_self {α : Type} (m : Jmap α) (k : Nat) (v : α) :
    jget (jset m k v) k = some v := by
  induction m with
  | nil => simp [jset, jget]
  | cons e t ih =>
      by_cases h : e.1 = k
      · simp [jset, h, jget]
      · simpa [jset, h, jget, List.find?_cons_of_neg, h] using ih

theorem jget_jset_ne {α : Type} (m : Jmap α) {k k' : Nat} (v : α) (h : k' ≠ k) :
    jget (jset m k v) k' = jget m k' := by
  induction m with
  | nil => simp [jset, jget, Ne.symm h]
  | cons e t ih =>
      by_cases he : e.1 = k
      · subst he
        simp [jset, jget, Ne.symm h]
      · have hs : jset (e :: t) k v = e :: jset t k v := by simp [jset, he]
        by_cases he' : e.1 = k'
        · rw [hs]
          unfold jget
          rw [List.find?_cons_of_pos _ (by simpa using he'),
              List.find?_cons_of_pos _ (by simpa using he')]
        · rw [hs]
          unfold jget at ih ⊢
          rw [List.find?_cons_of_neg _ (by simpa using he'),
              List.find?_cons_of_neg _ (by simpa using he')]
          exact ih

theorem mem_jset {α : Type} {m : Jmap α} {k : Nat} {v : α} {p : Nat × α}
    (hp : p ∈ jset m k v) : p = (k, v) ∨ p ∈ m := by
  induction m with
  | nil => simpa [jset] using hp
  | cons e t ih =>
      by_cases h : e.1 = k
      · simp [jset, h] at hp
        rcases hp with hp | hp
        · exact Or.inl hp
        · exact Or.inr (List.mem_cons_of_mem _ hp)
      · simp [jset, h] at hp
        rcases hp with hp | hp
        · exact Or.inr (by simp [hp])
        · rcases ih hp with h1 | h1
          · exact Or.inl h1
          · exact Or.inr (List.mem_cons_of_mem _ h1)

theorem length_jset_of_key {α : Type} {m : Jmap α} {k : Nat} (v : α)
    (h : ∃ p ∈ m, p.1 = k) : (jset m k v).length = m.length := by
  induction m with
  | nil => simp at h
  | cons e t ih =>
      by_cases he : e.1 = k
      · simp [jset, he]
      · rcases h with ⟨p, hp, hpk⟩
        rcases List.mem_cons.mp hp with rfl | hpt
        · exact absurd hpk he
        · simp [jset, he, ih ⟨p, hpt, hpk⟩]

theorem mem_jvalues_jset {α : Type} (m : Jmap α) (k : Nat) (v : α) :
    v ∈ jvalues (jset m k v) := by
  induction m with
  | nil => simp [jset, jvalues]
  | cons e t ih =>
      by_cases h : e.1 = k
      · simp [jset, h, jvalues]
      · simp [jset, h, jvalues] at ih ⊢
        exact Or.inr ih

theorem find?_jset_of_found {α : Type} {m : Jmap α} {p : α → Bool} {ent : Nat × α}
    (hf : m.find? (fun e => p e.2) = some ent) {v : α} (hv : p v = true) :
    (jset m ent.1 v).find? (fun e => p e.2) = some (ent.1, v) := by
  induction m with
  | nil => simp at hf
  | cons e t ih =>
      by_cases hpe : p e.2 = true
      · simp only [List.find?_cons, hpe] at hf
        injection hf with hf
        subst hf
        have hs : jset (e :: t) e.1 v = (e.1, v) :: t := by simp [jset]
        rw [hs, List.find?_cons_of_pos _ (by simpa using hv)]
      · have hpe' : p e.2 = false := by simpa using hpe
        simp only [List.find?_cons, hpe'] at hf
        by_cases he : e.1 = ent.1
        · have hs : jset (e :: t) ent.1 v = (ent.1, v) :: t := by simp [jset, he]
          rw [hs, List.find?_cons_of_pos _ (by simpa using hv)]
        · rw [show jset (e :: t) ent.1 v = e :: jset t ent.1 v by simp [jset, he]]
          rw [List.find?_cons_of_neg _ (by simpa using hpe)]
          exact ih hf

theorem find?_jset_of_none {α : Type} {m : Jmap α} {p : α → Bool}
    (hf : m.find? (fun e => p e.2) = none) {k : Nat} {v : α} (hv : p v = true) :
    (jset m k v).find? (fun e => p e.2) = some (k, v) := by
  induction m with
  | nil =>
      rw [show jset ([] : Jmap α) k v = [(k, v)] from rfl,
          List.find?_cons_of_pos _ (by simpa using hv)]
  | cons e t ih =>
      rw [List.find?_eq_none] at hf
      have hpe : ¬ p e.2 = true := by
        simpa using hf e (List.mem_cons_self _ _)
      by_cases he : e.1 = k
      · have hs : jset (e :: t) k v = (k, v) :: t := by simp [jset, he]
        rw [hs, List.find?_cons_of_pos _ (by simpa using hv)]
      · rw [show jset (e :: t) k v = e :: jset t k v by simp [jset, he]]
        rw [List.find?_cons_of_neg _ (by simpa using hpe)]
        exact ih (List.find?_eq_none.mpr (fun x hx => hf x (List.mem_cons_of_mem _ hx)))

theorem jget_eq_some_mem {α : Type} {m : Jmap α} {k : Nat} {v : α}
    (h : jget m k = some v) : (k, v) ∈ m := by
  unfold jget at h
  cases hf : m.find? (fun p => p.1 == k) with
  | none => rw [hf] at h; simp at h
  | some ent =>
      rw [hf] at h
      have hm := List.mem_of_find?_eq_some hf
      have hk : ent.1 = k := by simpa using List.find?_some hf
      simp only [Option.map_some'] at h
      injection h with h
      have : ent = (k, v) := by
        cases ent; simp_all
      rwa [this] at hm

/-! ### Lemmas about the conversation ledger -/

theorem getConversation_entry (s : Storage) (a b : Nat) :
    getConversation s a b =
      (s.conversations.find? (fun e => pairMatch a b e.2)).map (·.2) := by
  unfold getConversation jvalues pairMatch
  rw [List.find?_map]
  rfl

theorem pairMatch_comm (a b : Nat) (c : Conversation) :
    pairMatch a b c = pairMatch b a c := by
  unfold pairMatch
  exact decide_eq_decide.mpr (by tauto)

theorem getConversation_comm (s : Storage) (a b : Nat) :
    getConversation s a b = getConversation s b a := by
  rw [getConversation_entry, getConversation_entry]
  have h : (fun e : Nat × Conversation => pairMatch a b e.2) =
      (fun e : Nat × Conversation => pairMatch b a e.2) :=
    funext (fun e => pairMatch_comm a b e.2)
  rw [h]

theorem getConversation_some_elim {s : Storage} {a b : Nat} {cv : Conversation}
    (hk : ∀ p ∈ s.conversations, (p.2).id = p.1)
    (hc : getConversation s a b = some cv) :
    s.conversations.find? (fun e => pairMatch a b e.2) = some (cv.id, cv) ∧
      (cv.id, cv) ∈ s.conversations ∧ pairMatch a b cv = true := by
  rw [getConversation_entry] at hc
  rcases Option.map_eq_some'.mp hc with ⟨ent, hent, hsnd⟩
  obtain ⟨k, c⟩ := ent
  simp only at hsnd
  have hmem := List.mem_of_find?_eq_some hent
  have hkey : c.id = k := hk _ hmem
  rw [hsnd] at hent hmem hkey
  rw [← hkey] at hent hmem
  exact ⟨hent, hmem, by simpa using List.find?_some hent⟩

theorem createOrUpdate_users (s : Storage) (a b mid : Nat) :
    (createOrUpdateConversation s a b mid).users = s.users := by
  cases hc : getConversation s a b <;> simp [createOrUpdateConversation, hc]

theorem createOrUpdate_messages (s : Storage) (a b mid : Nat) :
    (createOrUpdateConversation s a b mid).messages = s.messages := by
  cases hc : getConversation s a b <;> simp [createOrUpdateConversation, hc]

theorem createOrUpdate_now (s : Storage) (a b mid : Nat) :
    (createOrUpdateConversation s a b mid).now = s.now := by
  cases hc : getConversation s a b <;> simp [createOrUpdateConversation, hc]

theorem createOrUpdate_conversations_found {s : Storage} {a b : Nat} {cv : Conversation}
    (mid : Nat) (hc : getConversation s a b = some cv) :
    (createOrUpdateConversation s a b mid).conversations =
      jset s.conversations cv.id { cv with lastMessageId := mid, updatedAt := s.now } := by
  simp [createOrUpdateConversation, hc]

theorem createOrUpdate_conversations_none {s : Storage} {a b : Nat}
    (mid : Nat) (hc : getConversation s a b = none) :
    (createOrUpdateConversation s a b mid).conversations =
      jset s.conversations s.currentConversationId
        { id := s.currentConversationId, user1Id := a, user2Id := b,
          lastMessageId := mid, updatedAt := s.now } := by
  simp [createOrUpdateConversation, hc]

theorem getConversation_eq_of_conversations {s t : Storage} (a b : Nat)
    (h : s.conversations = t.conversations) :
    getConversation s a b = getConversation t a b := by
  rw [getConversation_entry, getConversation_entry, h]

theorem getConversation_after_upsert (s : Storage) (a b mid : Nat)
    (hk : ∀ p ∈ s.conversations, (p.2).id = p.1) :
    ∃ cv', getConversation (createOrUpdateConversation s a b mid) a b = some cv' ∧
      cv'.lastMessageId = mid ∧
      ∀ cv, getConversation s a b = some cv → cv'.id = cv.id := by
  cases hc : getConversation s a b with
  | some cv =>
      rcases getConversation_some_elim hk hc with ⟨hent, _, hpm⟩
      have hv : pairMatch a b { cv with lastMessageId := mid, updatedAt := s.now } = true := by
        simpa [pairMatch] using hpm
      have hfind := find?_jset_of_found hent hv
      refine ⟨{ cv with lastMessageId := mid, updatedAt := s.now }, ?_, rfl, ?_⟩
      · rw [getConversation_entry, createOrUpdate_conversations_found mid hc, hfind]
        rfl
      · intro cv0 hcv0
        have heq : cv = cv0 := Option.some.inj hcv0
        simp [← heq]
  | none =>
      have hfnone : s.conversations.find? (fun e => pairMatch a b e.2) = none := by
        rw [getConversation_entry] at hc
        exact Option.map_eq_none'.mp hc
      have hv : pairMatch a b
          { id := s.currentConversationId, user1Id := a, user2Id := b,
            lastMessageId := mid, updatedAt := s.now } = true := by
        simp [pairMatch]
      have hfind := find?_jset_of_none (k := s.currentConversationId) hfnone hv
      refine ⟨{ id := s.currentConversationId, user1Id := a, user2Id := b,
                lastMessageId := mid, updatedAt := s.now }, ?_, rfl, ?_⟩
      · rw [getConversation_entry, createOrUpdate_conversations_none mid hc, hfind]
        rfl
      · intro cv0 hcv0
        exact Option.noConfusion hcv0

theorem convKeys_upsert {s : Storage} (a b mid : Nat)
    (hk : ∀ p ∈ s.conversations, (p.2).id = p.1) :
    ∀ p ∈ (createOrUpdateConversation s a b mid).conversations, (p.2).id = p.1 := by
  intro p hp
  cases hc : getConversation s a b with
  | some cv =>
      rw [createOrUpdate_conversations_found mid hc] at hp
      rcases mem_jset hp with rfl | hp'
      · rfl
      · exact hk p hp'
  | none =>
      rw [createOrUpdate_conversations_none mid hc] at hp
      rcases mem_jset hp with rfl | hp'
      · rfl
      · exact hk p hp'

theorem length_upsert_found {s : Storage} {a b : Nat} {cv : Conversation} (mid : Nat)
    (hk : ∀ p ∈ s.conversations, (p.2).id = p.1)
    (hc : getConversation s a b = some cv) :
    (createOrUpdateConversation s a b mid).conversations.length =
      s.conversations.length := by
  rcases getConversation_some_elim hk hc with ⟨_, hmem, _⟩
  rw [createOrUpdate_conversations_found mid hc]
  exact length_jset_of_key _ ⟨(cv.id, cv), hmem, rfl⟩

theorem createOrUpdate_conversations_congr (s t : Storage) (a b mid : Nat)
    (hc : s.conversations = t.conversations) (hn : s.now = t.now)
    (hi : s.currentConversationId = t.currentConversationId) :
    (createOrUpdateConversation s a b mid).conversations =
      (createOrUpdateConversation t a b mid).conversations := by
  have hg : getConversation s a b = getConversation t a b :=
    getConversation_eq_of_conversations a b hc
  cases hgc : getConversation t a b with
  | some cv =>
      rw [createOrUpdate_conversations_found mid (hg.trans hgc),
          createOrUpdate_conversations_found mid hgc, hc, hn]
  | none =>
      rw [createOrUpdate_conversations_none mid (hg.trans hgc),
          createOrUpdate_conversations_none mid hgc, hc, hn, hi]

theorem createMessage_users (s : Storage) (a b : Nat) (c : String) :
    ((createMessage s a b c).1).users = s.users := by
  simp [createMessage, createOrUpdate_users]

theorem createMessage_messages (s : Storage) (a b : Nat) (c : String) :
    ((createMessage s a b c).1).messages =
      jset s.messages s.currentMessageId
        { id := s.currentMessageId, content := c, senderId := a, receiverId := b,
          timestamp := s.now, read := false } := by
  simp [createMessage, createOrUpdate_messages]

theorem createMessage_conversations (s : Storage) (a b : Nat) (c : String) :
    ((createMessage s a b c).1).conversations =
      (createOrUpdateConversation s a b s.currentMessageId).conversations := by
  simp only [createMessage]
  exact createOrUpdate_conversations_congr _ _ _ _ _ rfl rfl rfl

theorem createMessage_msg (s : Storage) (a b : Nat) (c : String) :
    (createMessage s a b c).2 =
      { id := s.currentMessageId, content := c, senderId := a, receiverId := b,
        timestamp := s.now, read := false } := rfl

theorem createMessage_currentMessageId (s : Storage) (a b : Nat) (c : String) :
    ((createMessage s a b c).1).currentMessageId = s.currentMessageId + 1 := by
  have h : ∀ t : Storage, (createOrUpdateConversation t a b s.currentMessageId).currentMessageId
      = t.currentMessageId := by
    intro t
    cases hc : getConversation t a b <;> simp [createOrUpdateConversation, hc]
  simp [createMessage, h]

theorem convKeys_createMessage {s : Storage} (a b : Nat) (c : String)
    (hk : ∀ p ∈ s.conversations, (p.2).id = p.1) :
    ∀ p ∈ ((createMessage s a b c).1).conversations, (p.2).id = p.1 := by
  intro p hp
  rw [createMessage_conversations] at hp
  exact convKeys_upsert a b s.currentMessageId hk p hp

theorem getConversation_createMessage (s : Storage) (a b x y : Nat) (c : String) :
    getConversation ((createMessage s a b c).1) x y =
      getConversation (createOrUpdateConversation s a b s.currentMessageId) x y :=
  getConversation_eq_of_conversations x y (createMessage_conversations s a b c)

/-- C5: for every unordered pair of users, recording a message from A to B and
then one from B to A updates the same single conversation record (the lookup
matches either orientation), rather than creating a second record: the second
call leaves the number of conversation records unchanged and repoints the
record found for the pair (same record id) at the second message. -/
theorem C5_conversation_pair_upsert (s : Storage) (A B : Nat) (c1 c2 : String)
    (hk : ∀ p ∈ s.conversations, (p.2).id = p.1) :
    ((createMessage (createMessage s A B c1).1 B A c2).1).conversations.length =
      ((createMessage s A B c1).1).conversations.length ∧
    ∃ cv1 cv2,
      getConversation (createMessage s A B c1).1 A B = some cv1 ∧
      getConversation ((createMessage (createMessage s A B c1).1 B A c2).1) A B = some cv2 ∧
      cv2.id = cv1.id ∧
      cv2.lastMessageId = ((createMessage s A B c1).1).currentMessageId := by
  obtain ⟨cv1, hcv1, _, _⟩ :=
    getConversation_after_upsert s A B s.currentMessageId hk
  have hk1 : ∀ p ∈ ((createMessage s A B c1).1).conversations, (p.2).id = p.1 :=
    convKeys_createMessage A B c1 hk
  have hcv1' : getConversation ((createMessage s A B c1).1) A B = some cv1 :=
    (getConversation_createMessage s A B A B c1).trans hcv1
  have hcv1BA : getConversation ((createMessage s A B c1).1) B A = some cv1 :=
    (getConversation_comm _ B A).trans hcv1'
  set s1 := (createMessage s A B c1).1 with hs1
  obtain ⟨cv2, hcv2, hmid2, hid2⟩ :=
    getConversation_after_upsert s1 B A s1.currentMessageId hk1
  refine ⟨?_, cv1, cv2, hcv1', ?_, hid2 cv1 hcv1BA, ?_⟩
  · calc ((createMessage s1 B A c2).1).conversations.length
        = (createOrUpdateConversation s1 B A s1.currentMessageId).conversations.length := by
          rw [createMessage_conversations]
      _ = s1.conversations.length := length_upsert_found _ hk1 hcv1BA
  · rw [getConversation_createMessage, getConversation_comm _ A B]
    exact hcv2
  · exact hmid2

/-- C5 witness: instantiation on the two-user store, sending first from user 1
to user 2 and then back. -/
theorem C5_conversation_pair_upsert_witness :
    ((createMessage (createMessage storage0 1 2 "hi").1 2 1 "yo").1).conversations.length =
      ((createMessage storage0 1 2 "hi").1).conversations.length ∧
    ∃ cv1 cv2,
      getConversation (createMessage storage0 1 2 "hi").1 1 2 = some cv1 ∧
      getConversation ((createMessage (createMessage storage0 1 2 "hi").1 2 1 "yo").1) 1 2 = some cv2 ∧
      cv2.id = cv1.id ∧
      cv2.lastMessageId = ((createMessage storage0 1 2 "hi").1).currentMessageId :=
  C5_conversation_pair_upsert storage0 1 2 "hi" "yo" (by decide)

/-! ### Read-marking and unread counts -/

/-- C7: markMessagesAsRead is idempotent: applying it twice yields the same
store state as applying it once; it only flips the read flag of unread
messages from the other user to the viewer, leaving users, conversations and
every non-matching message untouched. -/
theorem C7_markRead_idempotent (s : Storage) (u o : Nat) :
    markMessagesAsRead (markMessagesAsRead s u o) u o = markMessagesAsRead s u o ∧
    (markMessagesAsRead s u o).users = s.users ∧
    (markMessagesAsRead s u o).conversations = s.conversations ∧
    ∀ p ∈ s.messages, ¬((p.2).senderId = o ∧ (p.2).receiverId = u ∧ (p.2).read = false) →
      p ∈ (markMessagesAsRead s u o).messages := by
  have hff : markReadEntry u o ∘ markReadEntry u o = markReadEntry u o := by
    funext p
    by_cases h : (p.2).senderId = o ∧ (p.2).receiverId = u ∧ (p.2).read = false
    · simp [markReadEntry, Function.comp, h]
    · simp [markReadEntry, Function.comp, h]
  refine ⟨?_, rfl, rfl, ?_⟩
  · unfold markMessagesAsRead
    simp only [List.map_map, hff]
  · intro p hp hnp
    unfold markMessagesAsRead
    exact List.mem_map.mpr ⟨p, hp, by simp [markReadEntry, hnp]⟩

/-- C7 witness: idempotence evaluated on the store where user 1 has messaged
user 2. -/
theorem C7_markRead_idempotent_witness :
    markMessagesAsRead (markMessagesAsRead storageAB 2 1) 2 1 =
      markMessagesAsRead storageAB 2 1 :=
  (C7_markRead_idempotent storageAB 2 1).1

theorem unreadFrom_markRead (s : Storage) (u o : Nat) :
    unreadFrom (markMessagesAsRead s u o) u o = 0 := by
  unfold unreadFrom markMessagesAsRead jvalues
  rw [List.length_eq_zero, List.filter_eq_nil_iff]
  intro m hm
  simp only [List.map_map, List.mem_map] at hm
  rcases hm with ⟨p, _, rfl⟩
  by_cases h : (p.2).senderId = o ∧ (p.2).receiverId = u ∧ (p.2).read = false
  · simp [markReadEntry, Function.comp, h]
  · simp only [Function.comp, markReadEntry, if_neg h]
    simpa using h

theorem getUser_eq_of_users {s t : Storage} (x : Nat) (h : s.users = t.users) :
    getUser s x = getUser t x := by
  unfold getUser
  rw [h]

theorem getConversations_mem_intro {s : Storage} {userId : Nat} {cv : Conversation}
    {k : Nat} (hmem : (k, cv) ∈ s.conversations)
    (hin : cv.user1Id = userId ∨ cv.user2Id = userId)
    {ou : User}
    (hou : getUser s (if cv.user1Id = userId then cv.user2Id else cv.user1Id) = some ou) :
    { conv := cv, otherUser := ou,
      lastMessage := if cv.lastMessageId = 0 then none else jget s.messages cv.lastMessageId,
      unreadCount :=
        unreadFrom s userId (if cv.user1Id = userId then cv.user2Id else cv.user1Id) } ∈
      getConversations s userId := by
  unfold getConversations
  rw [(List.perm_insertionSort _ _).mem_iff]
  apply List.mem_filterMap.mpr
  refine ⟨cv, ?_, ?_⟩
  · exact List.mem_filter.mpr
      ⟨List.mem_map.mpr ⟨(k, cv), hmem, rfl⟩, by simpa using hin⟩
  · simp only [hou]

theorem getConversations_mem_elim {s : Storage} {userId : Nat} {e : ConversationEntry}
    (he : e ∈ getConversations s userId) :
    ∃ oid, getUser s oid = some e.otherUser ∧ e.unreadCount = unreadFrom s userId oid := by
  unfold getConversations at he
  rw [(List.perm_insertionSort _ _).mem_iff] at he
  rcases List.mem_filterMap.mp he with ⟨cv, _, hf⟩
  cases hgu : getUser s (if cv.user1Id = userId then cv.user2Id else cv.user1Id) with
  | none =>
      simp only [hgu] at hf
      exact Option.noConfusion hf
  | some ou =>
      simp only [hgu, Option.some.injEq] at hf
      refine ⟨if cv.user1Id = userId then cv.user2Id else cv.user1Id, ?_, ?_⟩
      · rw [← hf]
        exact hgu
      · rw [← hf]

/-- C6: after user A sends a message to user B with no subsequent read, B's
conversation listing reports an unread count of at least one for the A entry;
after marking B's side of the A conversation read, the unread count of the
pair is exactly zero, and so is the count reported by the listing. -/
theorem C6_unread_count (s : Storage) (A B : Nat) (content : String) (a : User)
    (hA : getUser s A = some a) (hAB : A ≠ B)
    (hu : ∀ p ∈ s.users, (p.2).id = p.1)
    (hkc : ∀ p ∈ s.conversations, (p.2).id = p.1) :
    (∃ e ∈ getConversations ((createMessage s A B content).1) B,
        e.otherUser.id = A ∧ 1 ≤ e.unreadCount) ∧
    unreadFrom (markMessagesAsRead ((createMessage s A B content).1) B A) B A = 0 ∧
    (∀ e ∈ getConversations (markMessagesAsRead ((createMessage s A B content).1) B A) B,
        e.otherUser.id = A → e.unreadCount = 0) := by
  set s1 := (createMessage s A B content).1 with hs1
  have hk1 : ∀ p ∈ s1.conversations, (p.2).id = p.1 := by
    rw [hs1]; exact convKeys_createMessage A B content hkc
  obtain ⟨cv1, hcv1u, _, _⟩ := getConversation_after_upsert s A B s.currentMessageId hkc
  have hcv1 : getConversation s1 A B = some cv1 := by
    rw [hs1]
    exact (getConversation_createMessage s A B A B content).trans hcv1u
  obtain ⟨hent, hmem, hpm⟩ := getConversation_some_elim hk1 hcv1
  have hpm' : (cv1.user1Id = A ∧ cv1.user2Id = B) ∨ (cv1.user1Id = B ∧ cv1.user2Id = A) :=
    of_decide_eq_true hpm
  have hin : cv1.user1Id = B ∨ cv1.user2Id = B := by tauto
  have hother : (if cv1.user1Id = B then cv1.user2Id else cv1.user1Id) = A := by
    rcases hpm' with ⟨h1, _⟩ | ⟨h1, h2⟩
    · rw [if_neg (by rw [h1]; exact hAB)]
      exact h1
    · rw [if_pos h1]
      exact h2
  have hgu1 : getUser s1 A = some a := by
    rw [hs1]
    exact (getUser_eq_of_users A (createMessage_users s A B content)).trans hA
  have hguOther : getUser s1 (if cv1.user1Id = B then cv1.user2Id else cv1.user1Id) = some a := by
    rw [hother]; exact hgu1
  have hentry := getConversations_mem_intro hmem hin hguOther
  have haid : a.id = A := hu (A, a) (jget_eq_some_mem hA)
  have hmsgmem :
      ({ id := s.currentMessageId, content := content, senderId := A, receiverId := B,
         timestamp := s.now, read := false } : Message) ∈ jvalues s1.messages := by
    rw [hs1, createMessage_messages]
    exact mem_jvalues_jset _ _ _
  have hcount : 1 ≤ unreadFrom s1 B A := by
    unfold unreadFrom
    have hmf :
        ({ id := s.currentMessageId, content := content, senderId := A, receiverId := B,
           timestamp := s.now, read := false } : Message) ∈
          (jvalues s1.messages).filter
            (fun m => decide (m.senderId = A ∧ m.receiverId = B ∧ m.read = false)) :=
      List.mem_filter.mpr ⟨hmsgmem, by simp⟩
    exact List.length_pos.mpr (List.ne_nil_of_mem hmf)
  refine ⟨⟨_, hentry, haid, ?_⟩, unreadFrom_markRead s1 B A, ?_⟩
  · show 1 ≤ unreadFrom s1 B (if cv1.user1Id = B then cv1.user2Id else cv1.user1Id)
    rw [hother]
    exact hcount
  · intro e he hid
    obtain ⟨oid, hgu, hcnt⟩ := getConversations_mem_elim he
    have hus2 : (markMessagesAsRead s1 B A).users = s.users := by
      show s1.users = s.users
      rw [hs1]
      exact createMessage_users s A B content
    have hmem2 : (oid, e.otherUser) ∈ s.users :=
      jget_eq_some_mem ((getUser_eq_of_users oid hus2).symm.trans hgu)
    have hoid : e.otherUser.id = oid := hu _ hmem2
    have hoidA : oid = A := hoid.symm.trans hid
    rw [hcnt, hoidA]
    exact unreadFrom_markRead s1 B A

/-- C6 witness: on the two-user store, user 1 messages user 2; the listing for
user 2 shows at least one unread message from user 1, and marking read brings
the count to exactly zero. -/
theorem C6_unread_count_witness :
    (∃ e ∈ getConversations ((createMessage storage0 1 2 "hi").1) 2,
        e.otherUser.id = 1 ∧ 1 ≤ e.unreadCount) ∧
    unreadFrom (markMessagesAsRead ((createMessage storage0 1 2 "hi").1) 2 1) 2 1 = 0 ∧
    (∀ e ∈ getConversations (markMessagesAsRead ((createMessage storage0 1 2 "hi").1) 2 1) 2,
        e.otherUser.id = 1 → e.unreadCount = 0) :=
  C6_unread_count storage0 1 2 "hi" (mkUser 1 "alice")
    (by decide) (by decide) (by decide) (by decide)

/-- C8: when the history route succeeds for a viewer, the served list consists
of exactly the messages exchanged with the conversation's other user in either
direction, in ascending timestamp order, and the store it leaves behind has
marked the viewer's side read: the unread count for that pair is zero while
users and conversations are untouched. -/
theorem C8_history_route (s : Storage) (u cid : Nat) (msgs : List Message) (s' : Storage)
    (h : routeGetMessages s u cid = some (msgs, s')) :
    ∃ oid,
      (∀ m, m ∈ msgs ↔ m ∈ jvalues s.messages ∧
          ((m.senderId = u ∧ m.receiverId = oid) ∨ (m.senderId = oid ∧ m.receiverId = u))) ∧
      List.Pairwise (fun a b => a.timestamp ≤ b.timestamp) msgs ∧
      unreadFrom s' u oid = 0 ∧
      s'.users = s.users ∧ s'.conversations = s.conversations := by
  unfold routeGetMessages at h
  cases hf : (getConversations s u).find? (fun e => e.conv.id == cid) with
  | none =>
      rw [hf] at h
      exact Option.noConfusion h
  | some e =>
      rw [hf] at h
      injection h with h
      have hm : getMessages s u e.otherUser.id = msgs := congrArg Prod.fst h
      have hs : markMessagesAsRead s u e.otherUser.id = s' := congrArg Prod.snd h
      refine ⟨e.otherUser.id, ?_, ?_, ?_, ?_, ?_⟩
      · intro m
        rw [← hm]
        unfold getMessages
        rw [(List.perm_insertionSort _ _).mem_iff]
        unfold messagesBetween
        rw [List.mem_filter]
        simp only [decide_eq_true_eq]
      · letI : IsTotal Message (fun a b => a.timestamp ≤ b.timestamp) :=
          ⟨fun a b => Nat.le_total _ _⟩
        letI : IsTrans Message (fun a b => a.timestamp ≤ b.timestamp) :=
          ⟨fun _ _ _ hab hbc => Nat.le_trans hab hbc⟩
        rw [← hm]
        exact List.sorted_insertionSort _ (messagesBetween s u e.otherUser.id)
      · rw [← hs]
        exact unreadFrom_markRead s u e.otherUser.id
      · rw [← hs]
        rfl
      · rw [← hs]
        rfl

/-- C8 witness: serving conversation 1 to user 2 after user 1 messaged user 2. -/
theorem C8_history_route_witness :
    routeGetMessages storageAB 2 1 = some (servedMsgs, storageABRead) ∧
    ∃ oid,
      (∀ m, m ∈ servedMsgs ↔ m ∈ jvalues storageAB.messages ∧
          ((m.senderId = 2 ∧ m.receiverId = oid) ∨ (m.senderId = oid ∧ m.receiverId = 2))) ∧
      List.Pairwise (fun a b => a.timestamp ≤ b.timestamp) servedMsgs ∧
      unreadFrom storageABRead 2 oid = 0 ∧
      storageABRead.users = storageAB.users ∧
      storageABRead.conversations = storageAB.conversations :=
  ⟨by decide, C8_history_route storageAB 2 1 servedMsgs storageABRead (by decide)⟩

/-- C10: searchUsers never returns the searching user, every hit matches the
lowered trimmed query inside its lowered username, email or name, at most ten
users are returned, and a blank query returns the empty list. -/
theorem C10_searchUsers_spec (s : Storage) (q : String) (cu : Nat) :
    (∀ u ∈ searchUsers s q cu, u.id ≠ cu ∧
        (containsSub (jsToLower u.username) (jsTrim (jsToLower q)) = true ∨
         containsSub (jsToLower u.email) (jsTrim (jsToLower q)) = true ∨
         containsSub (jsToLower u.name) (jsTrim (jsToLower q)) = true)) ∧
    (searchUsers s q cu).length ≤ 10 ∧
    (jsTrim q.toList = [] → searchUsers s q cu = []) := by
  unfold searchUsers
  by_cases hq : (jsTrim q.toList).isEmpty = true
  · simp only [if_pos hq]
    simp
  · rw [if_neg hq]
    refine ⟨?_, List.length_take_le _ _, ?_⟩
    · intro u hu
      have hu' := List.mem_filter.mp (List.take_subset _ _ hu)
      have hcond := hu'.2
      simp only [Bool.and_eq_true, Bool.or_eq_true, decide_eq_true_eq] at hcond
      refine ⟨by simpa using hcond.1, ?_⟩
      tauto
    · intro h0
      exact absurd (List.isEmpty_iff.mpr h0) hq

/-- C10 witness: a blank query gives no results and a matching query respects
the bound of ten. -/
theorem C10_searchUsers_spec_witness :
    searchUsers storage0 "  " 2 = [] ∧ (searchUsers storage0 "ALi" 2).length ≤ 10 :=
  ⟨(C10_searchUsers_spec storage0 "  " 2).2.2 (by decide),
   (C10_searchUsers_spec storage0 "ALi" 2).2.1⟩

/-! ### Lemmas about the WebSocket server -/

theorem dispatch_eq_sent (s : ServerState) (m : WSMessage) :
    ∃ l, dispatch s m = { s with sent := s.sent ++ l } := by
  unfold dispatch push
  cases m.type with
  | text =>
      cases jget s.clients m.receiverId with
      | none => exact ⟨[], by simp⟩
      | some r =>
          by_cases h : isOpenConn s r = true
          · exact ⟨[(r, m)], by simp [h]⟩
          · exact ⟨[], by simp [h]⟩
  | typing =>
      cases jget s.clients m.receiverId with
      | none => exact ⟨[], by simp⟩
      | some r =>
          by_cases h : isOpenConn s r = true
          · exact ⟨[(r, m)], by simp [h]⟩
          · exact ⟨[], by simp [h]⟩
  | status => exact ⟨_, rfl⟩

theorem dispatch_clients (s : ServerState) (m : WSMessage) :
    (dispatch s m).clients = s.clients := by
  obtain ⟨l, hl⟩ := dispatch_eq_sent s m
  rw [hl]

theorem dispatch_conns (s : ServerState) (m : WSMessage) :
    (dispatch s m).conns = s.conns := by
  obtain ⟨l, hl⟩ := dispatch_eq_sent s m
  rw [hl]

theorem dispatch_store (s : ServerState) (m : WSMessage) :
    (dispatch s m).store = s.store := by
  obtain ⟨l, hl⟩ := dispatch_eq_sent s m
  rw [hl]

theorem setConnUser_clients (s : ServerState) (c uid : Nat) :
    (setConnUser s c uid).clients = s.clients := by
  unfold setConnUser
  cases jget s.conns c <;> rfl

theorem setConnUser_store (s : ServerState) (c uid : Nat) :
    (setConnUser s c uid).store = s.store := by
  unfold setConnUser
  cases jget s.conns c <;> rfl

theorem closeConn_clients (s : ServerState) (c : Nat) :
    (closeConn s c).clients = s.clients := by
  unfold closeConn
  cases jget s.conns c <;> rfl

theorem closeConn_store (s : ServerState) (c : Nat) :
    (closeConn s c).store = s.store := by
  unfold closeConn
  cases jget s.conns c <;> rfl

theorem setConnUser_conns_self {s : ServerState} {c : Nat} {st : ConnState} (uid : Nat)
    (h : jget s.conns c = some st) :
    jget (setConnUser s c uid).conns c = some { st with userId := some uid } := by
  unfold setConnUser
  rw [h]
  exact jget_jset_self _ _ _

theorem setConnUser_conns_ne (s : ServerState) (c uid : Nat) {d : Nat} (hd : d ≠ c) :
    jget (setConnUser s c uid).conns d = jget s.conns d := by
  unfold setConnUser
  cases h : jget s.conns c with
  | none => rfl
  | some st => exact jget_jset_ne _ _ hd

theorem closeConn_conns_ne (s : ServerState) (c : Nat) {d : Nat} (hd : d ≠ c) :
    jget (closeConn s c).conns d = jget s.conns d := by
  unfold closeConn
  cases h : jget s.conns c with
  | none => rfl
  | some st => exact jget_jset_ne _ _ hd

theorem isOpenConn_closeConn_self (s : ServerState) (c : Nat) :
    isOpenConn (closeConn s c) c = false := by
  unfold closeConn isOpenConn
  cases h : jget s.conns c with
  | none => rw [h]
  | some st => rw [jget_jset_self]; rfl

theorem isOpenConn_congr {s t : ServerState} (d : Nat)
    (h : jget s.conns d = jget t.conns d) : isOpenConn s d = isOpenConn t d := by
  unfold isOpenConn
  rw [h]

theorem connUser_congr {s t : ServerState} (d : Nat)
    (h : jget s.conns d = jget t.conns d) : connUser s d = connUser t d := by
  unfold connUser
  rw [h]

theorem connUser_closeConn (s : ServerState) (c d : Nat) :
    connUser (closeConn s c) d = connUser s d := by
  unfold closeConn connUser
  cases h : jget s.conns c with
  | none => rfl
  | some st =>
      by_cases hd : d = c
      · subst hd
        rw [jget_jset_self, h]
      · rw [jget_jset_ne _ _ hd]

theorem handleMessage_unknown {s : ServerState} {c : Nat} {m : WSMessage} {st : ConnState}
    (hc : jget s.conns c = some st) (hun : st.userId = none)
    (hnt : m.type ≠ FrameType.text) (hgu : getUser s.store m.senderId = none) :
    handleMessage s c m = s := by
  unfold handleMessage
  rw [hc]
  dsimp only
  rw [if_pos ⟨hun, hnt⟩, hgu]

theorem handleMessage_text {s : ServerState} {c : Nat} {m : WSMessage} {st : ConnState}
    (hc : jget s.conns c = some st) (ht : m.type = FrameType.text) :
    handleMessage s c m = dispatch s m := by
  unfold handleMessage
  rw [hc]
  dsimp only
  rw [if_neg]
  rintro ⟨_, hnt⟩
  exact hnt ht

theorem handleMessage_authed {s : ServerState} {c : Nat} (m : WSMessage) {uid : Nat}
    (hc : connUser s c = some uid) :
    handleMessage s c m = dispatch s m := by
  unfold handleMessage
  cases h : jget s.conns c with
  | none =>
      exfalso
      unfold connUser at hc
      rw [h] at hc
      exact Option.noConfusion hc
  | some st =>
      have hst : st.userId = some uid := by
        unfold connUser at hc
        rw [h] at hc
        exact hc
      dsimp only
      rw [if_neg]
      rintro ⟨h1, _⟩
      rw [h1] at hst
      exact Option.noConfusion hst

theorem bind_tail (s2 : ServerState) (m : WSMessage) (c : Nat) :
    (dispatch (if m.type = FrameType.status
        then { { s2 with clients := jset s2.clients m.senderId c } with
               store := updateUserStatus
                 ({ s2 with clients := jset s2.clients m.senderId c }).store
                 m.senderId (m.content = "online") }
        else { s2 with clients := jset s2.clients m.senderId c }) m).clients
      = jset s2.clients m.senderId c ∧
    (dispatch (if m.type = FrameType.status
        then { { s2 with clients := jset s2.clients m.senderId c } with
               store := updateUserStatus
                 ({ s2 with clients := jset s2.clients m.senderId c }).store
                 m.senderId (m.content = "online") }
        else { s2 with clients := jset s2.clients m.senderId c }) m).conns
      = s2.conns ∧
    (dispatch (if m.type = FrameType.status
        then { { s2 with clients := jset s2.clients m.senderId c } with
               store := updateUserStatus
                 ({ s2 with clients := jset s2.clients m.senderId c }).store
                 m.senderId (m.content = "online") }
        else { s2 with clients := jset s2.clients m.senderId c }) m).store
      = (if m.type = FrameType.status
         then updateUserStatus s2.store m.senderId (m.content = "online")
         else s2.store) := by
  refine ⟨?_, ?_, ?_⟩
  · rw [dispatch_clients, apply_ite ServerState.clients]
    dsimp only
    rw [ite_self]
  · rw [dispatch_conns, apply_ite ServerState.conns]
    dsimp only
    rw [ite_self]
  · rw [dispatch_store, apply_ite ServerState.store]

theorem handleMessage_bind_effect (s : ServerState) (c : Nat) (m : WSMessage)
    (st : ConnState) (u : User)
    (hc : jget s.conns c = some st) (hun : st.userId = none)
    (hnt : m.type ≠ FrameType.text) (hgu : getUser s.store m.senderId = some u) :
    (handleMessage s c m).clients = jset s.clients m.senderId c ∧
    connUser (handleMessage s c m) c = some m.senderId ∧
    isOpenConn (handleMessage s c m) c = !st.closing ∧
    (handleMessage s c m).store =
      (if m.type = FrameType.status
       then updateUserStatus s.store m.senderId (m.content = "online") else s.store) ∧
    (∀ e, jget s.clients m.senderId = some e → e ≠ c →
        isOpenConn (handleMessage s c m) e = false) ∧
    (∀ d, d ≠ c → jget s.clients m.senderId ≠ some d →
        jget (handleMessage s c m).conns d = jget s.conns d) ∧
    (∀ d, d ≠ c → connUser (handleMessage s c m) d = connUser s d) := by
  have hs1c : jget (setConnUser s c m.senderId).conns c =
      some { st with userId := some m.senderId } := setConnUser_conns_self _ hc
  have hs1cl := setConnUser_clients s c m.senderId
  have hs1st := setConnUser_store s c m.senderId
  unfold handleMessage
  rw [hc]
  dsimp only
  rw [if_pos ⟨hun, hnt⟩, hgu]
  dsimp only
  rw [hs1cl]
  cases hcl : jget s.clients m.senderId with
  | none =>
      dsimp only
      obtain ⟨h1, h2, h3⟩ := bind_tail (setConnUser s c m.senderId) m c
      refine ⟨by rw [h1, hs1cl], ?_, ?_, by rw [h3, hs1st], ?_, ?_, ?_⟩
      · unfold connUser
        rw [h2, hs1c]
      · unfold isOpenConn
        rw [h2, hs1c]
      · intro e he
        exact Option.noConfusion he
      · intro d hd _
        rw [h2]
        exact setConnUser_conns_ne s c m.senderId hd
      · intro d hd
        unfold connUser
        rw [h2, setConnUser_conns_ne s c m.senderId hd]
  | some e =>
      dsimp only
      by_cases hec : e = c
      · rw [if_neg (not_not_intro hec)]
        obtain ⟨h1, h2, h3⟩ := bind_tail (setConnUser s c m.senderId) m c
        refine ⟨by rw [h1, hs1cl], ?_, ?_, by rw [h3, hs1st], ?_, ?_, ?_⟩
        · unfold connUser
          rw [h2, hs1c]
        · unfold isOpenConn
          rw [h2, hs1c]
        · intro e' he' hne
          injection he' with he'
          exact absurd (he'.symm.trans hec) hne
        · intro d hd _
          rw [h2]
          exact setConnUser_conns_ne s c m.senderId hd
        · intro d hd
          unfold connUser
          rw [h2, setConnUser_conns_ne s c m.senderId hd]
      · rw [if_pos hec]
        obtain ⟨h1, h2, h3⟩ :=
          bind_tail (closeConn (setConnUser s c m.senderId) e) m c
        have hcc : (closeConn (setConnUser s c m.senderId) e).clients = s.clients :=
          (closeConn_clients _ _).trans hs1cl
        have hcs : (closeConn (setConnUser s c m.senderId) e).store = s.store :=
          (closeConn_store _ _).trans hs1st
        have hcconns : jget (closeConn (setConnUser s c m.senderId) e).conns c =
            some { st with userId := some m.senderId } := by
          rw [closeConn_conns_ne _ _ (fun h => hec h.symm)]
          exact hs1c
        refine ⟨by rw [h1, hcc], ?_, ?_, by rw [h3, hcs], ?_, ?_, ?_⟩
        · unfold connUser
          rw [h2, hcconns]
        · unfold isOpenConn
          rw [h2, hcconns]
        · intro e' he' _
          injection he' with he'
          subst he'
          calc isOpenConn _ e
              = isOpenConn (closeConn (setConnUser s c m.senderId) e) e :=
                isOpenConn_congr e (by rw [h2])
            _ = false := isOpenConn_closeConn_self _ _
        · intro d hd hdne
          rw [h2, closeConn_conns_ne _ _ (fun h => hdne (by rw [h])),
              setConnUser_conns_ne s c m.senderId hd]
        · intro d hd
          calc connUser _ d
              = connUser (closeConn (setConnUser s c m.senderId) e) d :=
                connUser_congr d (by rw [h2])
            _ = connUser (setConnUser s c m.senderId) d := connUser_closeConn _ _ _
            _ = connUser s d := connUser_congr d (setConnUser_conns_ne s c m.senderId hd)

/-- C1: the code violates the claim that a stale close is a no-op.  After
identity 1 binds connection 10 and then connection 11 (which closes 10),
delivering the close event of the evicted connection 10 deletes identity 1's
entry from the clients map even though the stored connection at that moment is
the newer, still-open connection 11: the close handler removes the binding
unconditionally instead of only when the stored connection is the closing one. -/
theorem C1_stale_close_removes_new_binding :
    jget (runEvents server0 staleCloseTrace).clients 1 = none ∧
    connUser (runEvents server0 staleCloseTrace) 11 = some 1 ∧
    isOpenConn (runEvents server0 staleCloseTrace) 11 = true ∧
    isOpenConn (runEvents server0 staleCloseTrace) 10 = false := by
  decide

/-- C4: the code violates the claim that a close caused by
eviction-by-replacement triggers neither the offline mark nor the broadcast.
With observer identity 2 on connection 20, identity 1 on connection 10 evicted
by connection 11, delivering the eviction-caused close of connection 10 marks
user 1 offline in storage, sends the offline status frame about user 1 to the
observer, and removes the fresh binding of connection 11. -/
theorem C4_eviction_close_marks_offline :
    (getUser (runEvents server0 evictionTrace).store 1).map (·.isOnline) = some false ∧
    (20, offlineFrame 1) ∈ (runEvents server0 evictionTrace).sent ∧
    connUser (runEvents server0 evictionTrace) 11 = some 1 ∧
    isOpenConn (runEvents server0 evictionTrace) 11 = true ∧
    jget (runEvents server0 evictionTrace).clients 1 = none := by
  decide

/-- C3 counterexample: a text frame from a brand-new, unauthenticated
connection whose sender id 99 is unknown to the user store is not validated
and not discarded: it is forwarded verbatim to the bound receiver while the
connection stays unauthenticated, refuting the claim that the first inbound
frame of any kind is validated before any routing. -/
theorem C3_text_frame_bypasses_validation :
    getUser serverC3.store 99 = none ∧
    connUser serverC3 10 = none ∧
    (handleMessage serverC3 10 strangerText).sent = [(20, strangerText)] ∧
    connUser (handleMessage serverC3 10 strangerText) 10 = none := by
  decide

/-- C3 amended: for a new (unauthenticated) connection, the first inbound
frame of any NON-text kind has its sender identity validated against the user
store before routing: on success the connection is bound to that identity
(registered in the clients map with the userId property set); on failure the
frame is discarded entirely, with the whole server state unchanged, and the
connection remains unauthenticated.  Text frames are exempt from the check:
they are dispatched without validation and the connection remains
unauthenticated, with registry, sockets and storage unchanged. -/
theorem C3_first_frame_auth (s : ServerState) (c : Nat) (m : WSMessage) (st : ConnState)
    (hc : jget s.conns c = some st) (hun : st.userId = none) :
    (m.type ≠ FrameType.text →
      (getUser s.store m.senderId = none → handleMessage s c m = s) ∧
      (∀ u, getUser s.store m.senderId = some u →
        jget (handleMessage s c m).clients m.senderId = some c ∧
        connUser (handleMessage s c m) c = some m.senderId)) ∧
    (m.type = FrameType.text →
      connUser (handleMessage s c m) c = none ∧
      (handleMessage s c m).clients = s.clients ∧
      (handleMessage s c m).conns = s.conns ∧
      (handleMessage s c m).store = s.store) := by
  constructor
  · intro hnt
    constructor
    · intro hgu
      exact handleMessage_unknown hc hun hnt hgu
    · intro u hgu
      obtain ⟨h1, h2, _, _, _, _, _⟩ := handleMessage_bind_effect s c m st u hc hun hnt hgu
      exact ⟨by rw [h1]; exact jget_jset_self _ _ _, h2⟩
  · intro ht
    have hd := handleMessage_text hc ht
    refine ⟨?_, by rw [hd, dispatch_clients], by rw [hd, dispatch_conns],
            by rw [hd, dispatch_store]⟩
    rw [hd]
    calc connUser (dispatch s m) c
        = connUser s c := connUser_congr c (by rw [dispatch_conns])
      _ = none := by
          unfold connUser
          rw [hc]
          exact hun

/-- C3 amended witness: on the concrete server, a typing frame from unknown
sender 99 is dropped with the state unchanged, while a typing frame from the
known user 1 binds the fresh connection 10. -/
theorem C3_first_frame_auth_witness :
    (handleMessage serverC3 10 (typingFrame 99 2) = serverC3) ∧
    (jget (handleMessage serverC3 10 (typingFrame 1 2)).clients 1 = some 10 ∧
     connUser (handleMessage serverC3 10 (typingFrame 1 2)) 10 = some 1) :=
  ⟨((C3_first_frame_auth serverC3 10 (typingFrame 99 2)
      { userId := none, closing := false } (by decide) rfl).1
      (by decide)).1 (by decide),
   ((C3_first_frame_auth serverC3 10 (typingFrame 1 2)
      { userId := none, closing := false } (by decide) rfl).1
      (by decide)).2 (mkUser 1 "alice") (by decide)⟩

/-- C9: processing a typing frame on an authenticated connection either sends
exactly that frame to the receiver's registered open connection, the rest of
the state unchanged, or leaves the state entirely unchanged; in particular the
message store and the conversation store are never touched. -/
theorem C9_typing_transient (s : ServerState) (c : Nat) (m : WSMessage) (uid : Nat)
    (ht : m.type = FrameType.typing) (hb : connUser s c = some uid) :
    ((∃ r, jget s.clients m.receiverId = some r ∧ isOpenConn s r = true ∧
        handleMessage s c m = { s with sent := s.sent ++ [(r, m)] }) ∨
      handleMessage s c m = s) ∧
    (handleMessage s c m).store.messages = s.store.messages ∧
    (handleMessage s c m).store.conversations = s.store.conversations := by
  rw [handleMessage_authed m hb]
  unfold dispatch
  rw [ht]
  dsimp only
  cases hr : jget s.clients m.receiverId with
  | none => exact ⟨Or.inr rfl, rfl, rfl⟩
  | some r =>
      dsimp only
      by_cases ho : isOpenConn s r = true
      · refine ⟨Or.inl ⟨r, rfl, ho, ?_⟩, ?_, ?_⟩
        · rw [if_pos ho]
          rfl
        · rw [if_pos ho]
          rfl
        · rw [if_pos ho]
          rfl
      · rw [if_neg ho]
        exact ⟨Or.inr rfl, rfl, rfl⟩

/-- C9 witness: user 2, bound to open connection 20, receives a typing frame
addressed to it, and nothing but the send log changes. -/
theorem C9_typing_transient_witness :
    ((∃ r, jget serverC3.clients 2 = some r ∧ isOpenConn serverC3 r = true ∧
        handleMessage serverC3 20 (typingFrame 2 2) =
          { serverC3 with sent := serverC3.sent ++ [(r, typingFrame 2 2)] }) ∨
      handleMessage serverC3 20 (typingFrame 2 2) = serverC3) ∧
    (handleMessage serverC3 20 (typingFrame 2 2)).store.messages =
      serverC3.store.messages ∧
    (handleMessage serverC3 20 (typingFrame 2 2)).store.conversations =
      serverC3.store.conversations :=
  C9_typing_transient serverC3 20 (typingFrame 2 2) 2 rfl (by decide)

/-! ### The bind sequence: last writer wins -/

theorem bindStep_spec (s : ServerState) (u c : Nat) (usr : User)
    (hu : getUser s.store u = some usr)
    (_hfresh : jget s.conns c = none) :
    (bindStep s u c).clients = jset s.clients u c ∧
    connUser (bindStep s u c) c = some u ∧
    isOpenConn (bindStep s u c) c = true ∧
    (bindStep s u c).store = s.store ∧
    (∀ e, jget s.clients u = some e → e ≠ c → isOpenConn (bindStep s u c) e = false) ∧
    (∀ d, d ≠ c → jget s.clients u ≠ some d →
        jget (bindStep s u c).conns d = jget s.conns d) ∧
    (∀ d, d ≠ c → connUser (bindStep s u c) d = connUser s d) := by
  unfold bindStep
  have hc0 : jget (handleConnect s c).conns c = some { userId := none, closing := false } := by
    unfold handleConnect
    exact jget_jset_self _ _ _
  have hclients0 : (handleConnect s c).clients = s.clients := rfl
  have hconns0 : ∀ d, d ≠ c → jget (handleConnect s c).conns d = jget s.conns d := by
    intro d hd
    unfold handleConnect
    exact jget_jset_ne _ _ hd
  obtain ⟨h1, h2, h3, h4, h5, h6, h7⟩ :=
    handleMessage_bind_effect (handleConnect s c) c (typingFrame u 0) _ usr hc0 rfl
      (fun h => FrameType.noConfusion h) hu
  refine ⟨?_, h2, ?_, ?_, ?_, ?_, ?_⟩
  · rw [h1]
    rfl
  · rw [h3]
    rfl
  · rw [h4, if_neg (fun h => FrameType.noConfusion h)]
    rfl
  · intro e he hec
    exact h5 e he hec
  · intro d hd hdn
    exact (h6 d hd hdn).trans (hconns0 d hd)
  · intro d hd
    exact (h7 d hd).trans (connUser_congr d (hconns0 d hd))

theorem bindStep_unbound (s : ServerState) (u c : Nat) (usr : User)
    (hu : getUser s.store u = some usr)
    (hfresh : jget s.conns c = none)
    (hnone : jget s.clients u = none) :
    BoundTo (bindStep s u c) u c ∧
    (bindStep s u c).store = s.store ∧
    (∀ d, d ≠ c → jget (bindStep s u c).conns d = jget s.conns d) := by
  obtain ⟨h1, h2, h3, h4, _, h6, _⟩ := bindStep_spec s u c usr hu hfresh
  refine ⟨⟨by rw [h1]; exact jget_jset_self _ _ _, h2, h3⟩, h4, ?_⟩
  intro d hd
  exact h6 d hd (fun h => Option.noConfusion (hnone.symm.trans h))

theorem bindStep_inv (s : ServerState) (u c c0 : Nat) (usr : User)
    (hu : getUser s.store u = some usr)
    (hb : BoundTo s u c0)
    (hfresh : jget s.conns c = none) :
    BoundTo (bindStep s u c) u c ∧
    isOpenConn (bindStep s u c) c0 = false ∧
    (bindStep s u c).store = s.store ∧
    (∀ d, d ≠ c → d ≠ c0 → jget (bindStep s u c).conns d = jget s.conns d) := by
  have hc0c : c0 ≠ c := by
    intro h
    have hcu := hb.2.1
    unfold connUser at hcu
    rw [h, hfresh] at hcu
    exact Option.noConfusion hcu
  obtain ⟨h1, h2, h3, h4, h5, h6, _⟩ := bindStep_spec s u c usr hu hfresh
  refine ⟨⟨by rw [h1]; exact jget_jset_self _ _ _, h2, h3⟩, ?_, h4, ?_⟩
  · exact h5 c0 hb.1 hc0c
  · intro d hd hd0
    exact h6 d hd (fun h => hd0 (Option.some.inj (hb.1.symm.trans h)).symm)

theorem bindSeq_inv (cs : List Nat) : ∀ (s : ServerState) (u c0 : Nat) (usr : User),
    getUser s.store u = some usr → BoundTo s u c0 → cs.Nodup →
    (∀ c ∈ cs, jget s.conns c = none) →
    BoundTo (bindSeq s u cs) u ((c0 :: cs).getLast (List.cons_ne_nil c0 cs)) ∧
    (∀ c ∈ (c0 :: cs).dropLast, isOpenConn (bindSeq s u cs) c = false) ∧
    (bindSeq s u cs).store = s.store ∧
    (∀ d, d ∉ c0 :: cs → jget (bindSeq s u cs).conns d = jget s.conns d) := by
  induction cs with
  | nil =>
      intro s u c0 usr _ hb _ _
      refine ⟨hb, ?_, rfl, fun d _ => rfl⟩
      intro x hx
      simp at hx
  | cons c cs' ih =>
      intro s u c0 usr hu hb hnd hfr
      have hfc : jget s.conns c = none := hfr c (List.mem_cons_self c cs')
      have hc0conns : ∃ st0, jget s.conns c0 = some st0 := by
        have hcu := hb.2.1
        unfold connUser at hcu
        cases h0 : jget s.conns c0 with
        | none =>
            rw [h0] at hcu
            exact Option.noConfusion hcu
        | some st0 => exact ⟨st0, rfl⟩
      obtain ⟨hb', hopen0, hst', hpres'⟩ := bindStep_inv s u c c0 usr hu hb hfc
      have hc0notin : c0 ∉ c :: cs' := by
        intro hmem
        obtain ⟨st0, h0⟩ := hc0conns
        have := hfr c0 hmem
        rw [h0] at this
        exact Option.noConfusion this
      have hu1 : getUser (bindStep s u c).store u = some usr := by
        rw [hst']
        exact hu
      have hnd' : cs'.Nodup := (List.nodup_cons.mp hnd).2
      have hcnotin : c ∉ cs' := (List.nodup_cons.mp hnd).1
      have hfr1 : ∀ x ∈ cs', jget (bindStep s u c).conns x = none := by
        intro x hx
        have hxc : x ≠ c := fun h => hcnotin (h ▸ hx)
        have hxc0 : x ≠ c0 := fun h => hc0notin (h ▸ List.mem_cons_of_mem c hx)
        rw [hpres' x hxc hxc0]
        exact hfr x (List.mem_cons_of_mem c hx)
      obtain ⟨ihB, ihClosed, ihStore, ihPres⟩ := ih (bindStep s u c) u c usr hu1 hb' hnd' hfr1
      have hseq : bindSeq s u (c :: cs') = bindSeq (bindStep s u c) u cs' := rfl
      rw [hseq]
      refine ⟨?_, ?_, ihStore.trans hst', ?_⟩
      · rw [List.getLast_cons (List.cons_ne_nil c cs')]
        exact ihB
      · intro x hx
        rw [show (c0 :: c :: cs').dropLast = c0 :: (c :: cs').dropLast from rfl] at hx
        rcases List.mem_cons.mp hx with rfl | hx'
        · have hpc0 : jget (bindSeq (bindStep s u c) u cs').conns x =
              jget (bindStep s u c).conns x := ihPres x hc0notin
          rw [isOpenConn_congr x hpc0]
          exact hopen0
        · exact ihClosed x hx'
      · intro d hd
        have hd1 : d ∉ c :: cs' := fun h => hd (List.mem_cons_of_mem c0 h)
        have hdc : d ≠ c := fun h => hd1 (h ▸ List.mem_cons_self c cs')
        have hdc0 : d ≠ c0 := fun h => hd (h ▸ List.mem_cons_self c0 _)
        exact (ihPres d hd1).trans (hpres' d hdc hdc0)

/-- C2: after any nonempty sequence of bind operations for identity u over
pairwise distinct fresh connections, starting from a state where u is
unbound, exactly the last connection of the sequence is registered for u in
the clients map, it is open and carries userId u, and every earlier
connection of the sequence has been closed. -/
theorem C2_last_bind_wins (s : ServerState) (u : Nat) (usr : User) (cs : List Nat)
    (clast : Nat)
    (hu : getUser s.store u = some usr)
    (hnone : jget s.clients u = none)
    (hnd : cs.Nodup)
    (hfr : ∀ c ∈ cs, jget s.conns c = none)
    (hlast : cs.getLast? = some clast) :
    jget (bindSeq s u cs).clients u = some clast ∧
    connUser (bindSeq s u cs) clast = some u ∧
    isOpenConn (bindSeq s u cs) clast = true ∧
    (∀ c ∈ cs.dropLast, isOpenConn (bindSeq s u cs) c = false) := by
  cases cs with
  | nil => exact Option.noConfusion hlast
  | cons c cs' =>
      have hfc : jget s.conns c = none := hfr c (List.mem_cons_self c cs')
      obtain ⟨hb1, hst1, hpres1⟩ := bindStep_unbound s u c usr hu hfc hnone
      have hu1 : getUser (bindStep s u c).store u = some usr := by
        rw [hst1]
        exact hu
      have hnd' : cs'.Nodup := (List.nodup_cons.mp hnd).2
      have hcnotin : c ∉ cs' := (List.nodup_cons.mp hnd).1
      have hfr1 : ∀ x ∈ cs', jget (bindStep s u c).conns x = none := by
        intro x hx
        rw [hpres1 x (fun h => hcnotin (h ▸ hx))]
        exact hfr x (List.mem_cons_of_mem c hx)
      obtain ⟨ihB, ihClosed, _, _⟩ := bindSeq_inv cs' (bindStep s u c) u c usr hu1 hb1 hnd' hfr1
      have hseq : bindSeq s u (c :: cs') = bindSeq (bindStep s u c) u cs' := rfl
      rw [hseq]
      have hlast' : (c :: cs').getLast (List.cons_ne_nil c cs') = clast := by
        rw [List.getLast?_eq_getLast (c :: cs') (List.cons_ne_nil c cs')] at hlast
        exact Option.some.inj hlast
      rw [← hlast']
      exact ⟨ihB.1, ihB.2.1, ihB.2.2, ihClosed⟩

/-- C2 witness: identity 1 binds connections 10 then 11 on the fresh server;
connection 11 remains registered, open and bound, while connection 10 has been
closed. -/
theorem C2_last_bind_wins_witness :
    jget (bindSeq server0 1 [10, 11]).clients 1 = some 11 ∧
    connUser (bindSeq server0 1 [10, 11]) 11 = some 1 ∧
    isOpenConn (bindSeq server0 1 [10, 11]) 11 = true ∧
    (∀ c ∈ ([10, 11] : List Nat).dropLast, isOpenConn (bindSeq server0 1 [10, 11]) c = false) :=
  C2_last_bind_wins server0 1 (mkUser 1 "alice") [10, 11] 11
    (by decide) rfl (by decide) (by decide) rfl

end MernChat
